import Mathlib

/-!
Verification of the resource registry / REST storage layer of this
repository: oauth client REST storage, the kubernetes event REST storage
with its attribute extractor and selector filtering, the asynchronous
result-handle discipline, and the optimistic-concurrency versioned store.

The REST and registry implementations themselves are not present in the
repository snapshot (only their tests, the API types and a client stub
are), so they are modelled from the specification, faithful to its words
and consistent with the behaviour the in-repository tests demand.  Each
such definition carries a doc comment starting `Modelled from the spec:`.
-/

namespace Spec2Proof

/-- Context carries an optional namespace scope (spec section 3): `none` is a
cluster-scoped context (`api.NewContext()`), `some ns` a namespace-scoped one. -/
abbrev Context := Option String

/-- Cluster-scoped context, as built by `api.NewContext()`. -/
def NewContext : Context := none

/-- Namespace-scoped context for the default namespace, as built by
`api.NewDefaultContext()`. -/
def NewDefaultContext : Context := some "default"

/-- Namespace-scoped context, as built by `api.WithNamespace(ctx, ns)`. -/
def WithNamespace (ns : String) : Context := some ns

/-- Namespace carried by a context, empty when cluster-scoped
(mirrors `api.Namespace(ctx)`). -/
def Context.namespaceOf : Context → String
  | none => ""
  | some ns => ns

/-- Object metadata envelope (the fields of `kapi.ObjectMeta` the registry
layer touches): identity (name, optional namespace), labels, and the system
fields creation timestamp and resource version.  A zero timestamp and a zero
resource version are the Go zero values, meaning absent. -/
structure ObjectMeta where
  name : String := ""
  ns : String := ""
  labels : List (String × String) := []
  creationTimestamp : Nat := 0
  resourceVersion : Nat := 0
  deriving DecidableEq, Repr

/-- Status result object (`api.Status`): carries a Status string
("Success" or "Failure") and a human-readable Message. -/
structure Status where
  status : String := ""
  message : String := ""
  deriving DecidableEq, Repr

/-- Result delivered on an asynchronous mutation's result channel
(`runtime.Object` in the tests): either a `Status` or a resource of the
operated kind. -/
inductive AsyncResult (α : Type) where
  | status : Status → AsyncResult α
  | obj : α → AsyncResult α
  deriving DecidableEq, Repr

/-- Modelled from the spec: `apiserver.MakeAsync` (missing from the snapshot),
the result-handle constructor.  The handle resolves exactly once: to the
function's object on success, or to a Failure `Status` whose Message is the
error's message verbatim (spec sections 5 and 7: the registry never silently
swallows an error; every failure either resolves a result handle with an
error or is returned synchronously). -/
def MakeAsync {α : Type} (fn : Except String α) : AsyncResult α :=
  match fn with
  | .error e => .status { status := "Failure", message := e }
  | .ok a => .obj a

/-- OAuth client resource, from `pkg/oauth/api/v1beta1/types.go`. -/
structure Client where
  meta : ObjectMeta := {}
  secret : String := ""
  respondWithChallenges : Bool := false
  redirectURIs : List String := []
  deriving DecidableEq, Repr

/-- Modelled from the spec: the kind-specific validation hook for oauth
clients (`validation.ValidateClient`, missing from the snapshot); the spec's
example of a required-name rule, matching `TestCreateValidationError` where a
client with no name must fail validation.  Returns the list of validation
errors, empty when the client is valid. -/
def validateClient (c : Client) : List String :=
  if c.meta.name = "" then ["name: required value"] else []

/-- Modelled from the spec: the backing registry for oauth clients as the
tests configure it (`test.ClientRegistry`, missing from the snapshot): an
injectable error `err` that every store operation surfaces verbatim
(spec: `StorageError`, surfaced verbatim, no local recovery), a canned
client and client list, and a record of the last deleted client name. -/
structure ClientRegistry where
  err : Option String := none
  client : Option Client := none
  clients : List Client := []
  deletedClientName : String := ""
  deriving DecidableEq, Repr

/-- Modelled from the spec: the backing registry's GetClient — fails with
the injected storage error, otherwise returns the canned client. -/
def ClientRegistry.getClient (r : ClientRegistry) : Except String (Option Client) :=
  match r.err with
  | some e => .error e
  | none => .ok r.client

/-- Modelled from the spec: the backing registry's CreateClient — fails with
the injected storage error, otherwise accepts the write. -/
def ClientRegistry.createClient (r : ClientRegistry) (c : Client) :
    Except String ClientRegistry :=
  match r.err with
  | some e => .error e
  | none => .ok { r with client := some c }

/-- Modelled from the spec: the backing registry's DeleteClient — records the
requested name as the deleted identity, and surfaces the injected storage
error when present. -/
def ClientRegistry.deleteClient (r : ClientRegistry) (name : String) :
    ClientRegistry × Option String :=
  ({ r with deletedClientName := name }, r.err)

/-- Modelled from the spec: the oauth client REST storage's Create.
Validates synchronously before any store I/O (spec: validation failures are
always synchronous and reported before any store I/O is attempted); on valid
input returns a nil synchronous error together with a result handle that
resolves to the stored client, or to a Failure Status carrying the backing
registry's error message verbatim. -/
def clientRESTCreate (reg : ClientRegistry) (ctx : Context) (c : Client) :
    Except String (AsyncResult Client) :=
  if validateClient c ≠ [] then
    .error "ValidationFailed: Client is invalid"
  else
    .ok (MakeAsync (match reg.createClient c with
      | .error e => .error e
      | .ok _ => .ok c))

/-- Modelled from the spec: the oauth client REST storage's Get — reads
current state synchronously; a backing registry failure is returned as the
synchronous error itself; an absent client is NotFound. -/
def clientRESTGet (reg : ClientRegistry) (ctx : Context) (name : String) :
    Except String Client :=
  match reg.getClient with
  | .error e => .error e
  | .ok none => .error "NotFound"
  | .ok (some c) => .ok c

/-- Modelled from the spec: the oauth client REST storage's List —
enumerates the registry's clients, applies the label selector, preserves the
store's return ordering; a backing registry failure is returned as the
synchronous error itself. -/
def clientRESTList (reg : ClientRegistry) (ctx : Context)
    (labelSel : List (String × String)) : Except String (List Client) :=
  match reg.err with
  | some e => .error e
  | none => .ok (reg.clients.filter (fun c =>
      labelSel.all (fun p => match c.meta.labels.lookup p.1 with
        | some v => v == p.2
        | none => false)))

/-- Fixed error message with which Update on the immutable-after-creation
oauth client kind fails; the backing registry is never consulted. -/
def clientUnsupportedMsg : String := "unsupported action: Update"

/-- Modelled from the spec: the oauth client REST storage's Update — the
client kind is immutable-after-creation, so Update unconditionally fails
with Unsupported, synchronously, without invoking the backing registry
(spec: for kinds marked immutable-after-creation, unconditionally fails
with Unsupported). -/
def clientRESTUpdate (reg : ClientRegistry) (ctx : Context) (c : Client) :
    Except String (AsyncResult Client) :=
  .error clientUnsupportedMsg

/-- Modelled from the spec: the oauth client REST storage's Delete — returns
a nil synchronous error and a result handle resolving exactly once to a
Status: Success when the backing registry accepted the delete, Failure with
the registry's error message verbatim otherwise.  Also returns the backing
registry's post-call state, which records the deleted identity. -/
def clientRESTDelete (reg : ClientRegistry) (ctx : Context) (name : String) :
    Except String (Status × ClientRegistry) :=
  match reg.deleteClient name with
  | (reg', some e) => .ok ({ status := "Failure", message := e }, reg')
  | (reg', none) => .ok ({ status := "Success", message := "" }, reg')

/-- Reference to the object an event is about (`api.ObjectReference`). -/
structure ObjectReference where
  kind : String := ""
  name : String := ""
  ns : String := ""
  uid : String := ""
  apiVersion : String := ""
  resourceVersion : String := ""
  fieldPath : String := ""
  deriving DecidableEq, Repr

/-- Kubernetes event resource (`api.Event`): object metadata, a reference to
the involved object, and the condition/reason/source attributes the field
extractor exposes. -/
structure Event where
  meta : ObjectMeta := {}
  involvedObject : ObjectReference := {}
  condition : String := ""
  reason : String := ""
  source : String := ""
  deriving DecidableEq, Repr

/-- Selector over label/field key-value mappings (spec section 4.1): a
conjunction of exact key-value requirements; the empty list is the
"everything" selector. -/
abbrev Selector := List (String × String)

/-- The everything selector (`labels.Everything()`), which matches all
resources. -/
def Selector.everything : Selector := []

/-- Matching is exact-value equality per key; all specified key/value pairs
must match (logical AND); a key the attribute mapping cannot produce yields
non-match rather than failing (spec section 4.1). -/
def Selector.matches (sel : Selector) (attrs : List (String × String)) : Bool :=
  sel.all (fun p => match attrs.lookup p.1 with
    | some v => v == p.2
    | none => false)

/-- Lookup by key in a name-keyed association list, the access discipline of
the stores keyed by identity name. -/
def lookupName {α : Type} : List (String × α) → String → Option α
  | [], _ => none
  | (k, a) :: t, name => if k = name then some a else lookupName t name

/-- Field attribute set the event kind's extractor produces for an event:
the involved object's reference fields plus condition, status, reason and
source, where both "condition" and "status" carry the event's Condition. -/
def eventFieldSet (e : Event) : List (String × String) :=
  [("involvedObject.kind", e.involvedObject.kind),
   ("involvedObject.name", e.involvedObject.name),
   ("involvedObject.namespace", e.involvedObject.ns),
   ("involvedObject.uid", e.involvedObject.uid),
   ("involvedObject.apiVersion", e.involvedObject.apiVersion),
   ("involvedObject.resourceVersion", e.involvedObject.resourceVersion),
   ("involvedObject.fieldPath", e.involvedObject.fieldPath),
   ("condition", e.condition),
   ("status", e.condition),
   ("reason", e.reason),
   ("source", e.source)]

/-- Modelled from the spec: the event REST storage's getAttrs (the
kind-specific attribute extractor, missing from the snapshot) — returns,
with nil error, an empty label set and the event's field attribute set. -/
def eventGetAttrs (e : Event) :
    Except String (List (String × String) × List (String × String)) :=
  .ok ([], eventFieldSet e)

/-- Combined selection predicate used identically by List filtering and
watch filtering: the label selector against the extractor's label set AND
the field selector against its field set. -/
def eventMatches (labelSel fieldSel : Selector) (e : Event) : Bool :=
  match eventGetAttrs e with
  | .ok lf => Selector.matches labelSel lf.1 && Selector.matches fieldSel lf.2
  | .error _ => false

/-- Modelled from the spec: the generic backing registry the event REST
storage is tested against (`registrytest.GenericRegistry`, missing from the
snapshot): an injectable storage error, a store keyed by name written by
Create and read by Get, and an object list that List enumerates. -/
structure EventRegistry where
  err : Option String := none
  store : List (String × Event) := []
  objectList : List Event := []
  deriving DecidableEq, Repr

/-- Modelled from the spec: the backing registry's Create for events —
surfaces the injected storage error verbatim, fails with AlreadyExists when
the identity is already present, otherwise writes through keyed by name. -/
def EventRegistry.createEvent (r : EventRegistry) (name : String) (e : Event) :
    Except String EventRegistry :=
  match r.err with
  | some msg => .error msg
  | none =>
    match lookupName r.store name with
    | some _ => .error "AlreadyExists"
    | none => .ok { r with store := (name, e) :: r.store }

/-- Modelled from the spec: the backing registry's Get for events — fails
with NotFound if absent, NamespaceMismatch if a non-empty context namespace
disagrees with the stored namespace, and surfaces the injected storage
error verbatim. -/
def EventRegistry.getEvent (r : EventRegistry) (ctx : Context) (name : String) :
    Except String Event :=
  match r.err with
  | some msg => .error msg
  | none =>
    match lookupName r.store name with
    | none => .error "NotFound"
    | some e =>
      if Context.namespaceOf ctx ≠ "" ∧ e.meta.ns ≠ Context.namespaceOf ctx then
        .error "NamespaceMismatch"
      else .ok e

/-- Modelled from the spec: the backing registry's Delete for events — fails
with NotFound if absent, otherwise removes the identity. -/
def EventRegistry.deleteEvent (r : EventRegistry) (name : String) :
    Except String EventRegistry :=
  match r.err with
  | some msg => .error msg
  | none =>
    match lookupName r.store name with
    | none => .error "NotFound"
    | some _ => .ok { r with store := r.store.filter (fun kv => kv.1 != name) }

/-- Whether the object-meta system fields the registry must assign on Create
(creation timestamp, initial resource version) are populated (mirrors
`api.HasObjectMetaSystemFieldValues`). -/
def hasObjectMetaSystemFieldValues (m : ObjectMeta) : Bool :=
  m.creationTimestamp != 0 && m.resourceVersion != 0

/-- Modelled from the spec: assignment of identity/system metadata fields if
absent on Create (spec section 4.2): the namespace defaults to the context's
namespace, the creation timestamp to the current time `now`, and the
resource version to the initial version 1. -/
def fillObjectMetaSystemFields (ctx : Context) (m : ObjectMeta) (now : Nat) :
    ObjectMeta :=
  { m with
    ns := if m.ns = "" then Context.namespaceOf ctx else m.ns,
    creationTimestamp := if m.creationTimestamp = 0 then now else m.creationTimestamp,
    resourceVersion := if m.resourceVersion = 0 then 1 else m.resourceVersion }

/-- Event as the registry stores it on Create: the incoming event with its
absent object-meta system fields assigned. -/
def eventStored (ctx : Context) (e : Event) (now : Nat) : Event :=
  { e with meta := fillObjectMetaSystemFields ctx e.meta now }

/-- Modelled from the spec: the event REST storage's Create.  A synchronous
validation error when the resource's explicit namespace conflicts with a
non-empty context namespace; otherwise assigns absent system metadata
fields, writes through the backing registry, and returns a result handle
resolving to the stored event (or to a Failure Status carrying a store
error verbatim).  Also returns the backing registry's post-call state. -/
def eventRESTCreate (reg : EventRegistry) (ctx : Context) (e : Event)
    (now : Nat) : Except String (AsyncResult Event × EventRegistry) :=
  if Context.namespaceOf ctx ≠ "" ∧ e.meta.ns ≠ "" ∧
      e.meta.ns ≠ Context.namespaceOf ctx then
    .error "ValidationFailed: namespace conflict"
  else
    match reg.createEvent (eventStored ctx e now).meta.name (eventStored ctx e now) with
    | .error msg => .ok (.status { status := "Failure", message := msg }, reg)
    | .ok reg' => .ok (.obj (eventStored ctx e now), reg')

/-- Modelled from the spec: the event REST storage's Get — reads current
state synchronously through the backing registry. -/
def eventRESTGet (reg : EventRegistry) (ctx : Context) (name : String) :
    Except String Event :=
  reg.getEvent ctx name

/-- Modelled from the spec: the event REST storage's List — enumerates the
backing registry's object list, applies both selectors (AND) through the
extractor, preserving the store's return ordering. -/
def eventRESTList (reg : EventRegistry) (ctx : Context)
    (labelSel fieldSel : Selector) : Except String (List Event) :=
  match reg.err with
  | some msg => .error msg
  | none => .ok (reg.objectList.filter (eventMatches labelSel fieldSel))

/-- Fixed error message with which Update on the immutable-after-creation
event kind fails. -/
def eventUnsupportedMsg : String := "unsupported action: Update"

/-- Modelled from the spec: the event REST storage's Update — the event kind
is immutable-after-creation, so Update unconditionally fails with
Unsupported, synchronously, without invoking the backing registry. -/
def eventRESTUpdate (reg : EventRegistry) (ctx : Context) (e : Event) :
    Except String (AsyncResult Event) :=
  .error eventUnsupportedMsg

/-- Modelled from the spec: the event REST storage's Delete — returns a nil
synchronous error and a result handle resolving exactly once to a Success
Status (or a Failure Status carrying the registry's error verbatim), plus
the backing registry's post-call state. -/
def eventRESTDelete (reg : EventRegistry) (ctx : Context) (name : String) :
    Except String (Status × EventRegistry) :=
  match reg.deleteEvent name with
  | .error msg => .ok ({ status := "Failure", message := msg }, reg)
  | .ok reg' => .ok ({ status := "Success", message := "" }, reg')

/-- Action tag of a watch event (`watch.EventType`). -/
inductive EventType where
  | added
  | modified
  | deleted
  | error
  deriving DecidableEq, Repr

/-- Watch event as published by the broadcaster and delivered to a watch
session: an action together with the affected event object, never mutated
after creation. -/
structure WatchEvent where
  action : EventType
  object : Event
  deriving DecidableEq, Repr

/-- Modelled from the spec: delivery of a watch session (broadcaster and
watch-session components, missing from the snapshot).  `published` is the
sequence of events the registry published to the broadcaster after the
session subscribed, in publication order; delivery preserves that exact
order, duplicates and drops nothing silently, and filters each event
through the session's selectors exactly as List filtering does (spec
sections 4.3 and 4.4). -/
def watchDeliver (labelSel fieldSel : Selector) (published : List WatchEvent) :
    List WatchEvent :=
  published.filter (fun we => eventMatches labelSel fieldSel we.object)

/-- Versioned resource entry of the optimistic-concurrency store: a
resource version together with an opaque payload (spec section 3: Resource
is an opaque kind-tagged value). -/
structure VRes where
  version : Nat
  payload : String
  deriving DecidableEq, Repr

/-- Versioned resource store keyed by identity name. -/
abbrev VStore := List (String × VRes)

/-- Registry error taxonomy relevant to mutations of the versioned store
(spec section 7). -/
inductive RegErr where
  | notFound
  | alreadyExists
  | conflict
  deriving DecidableEq, Repr

/-- Modelled from the spec: Create against the versioned store — fails with
AlreadyExists if the identity is present, otherwise writes the payload at
the initial resource version 1. -/
def vcreate (s : VStore) (name : String) (p : String) : Except RegErr VStore :=
  match lookupName s name with
  | some _ => .error .alreadyExists
  | none => .ok ((name, { version := 1, payload := p }) :: s)

/-- Modelled from the spec: Update against the versioned store — requires
the incoming resource version to match the stored version (optimistic
concurrency), fails with Conflict on mismatch leaving the store unchanged,
else writes the payload at the strictly increased version. -/
def vupdate (s : VStore) (name : String) (incomingVersion : Nat) (p : String) :
    Except RegErr VStore :=
  match lookupName s name with
  | none => .error .notFound
  | some stored =>
    if incomingVersion ≠ stored.version then .error .conflict
    else .ok (s.map (fun kv =>
      if kv.1 = name then (name, { version := stored.version + 1, payload := p }) else kv))

/-! Helper lemmas -/

/-- After replacing every entry with key `name` in a name-keyed store, the
lookup of `name` finds the replacement, provided `name` was present. -/
theorem lookupName_map_set {α : Type} (s : List (String × α)) (name : String)
    (x : α) (hmem : (lookupName s name).isSome = true) :
    lookupName (s.map (fun kv => if kv.1 = name then (name, x) else kv)) name
      = some x := by
  induction s with
  | nil => simp [lookupName] at hmem
  | cons hd tl ih =>
    rcases hd with ⟨k, w⟩
    rw [List.map_cons]
    dsimp only
    by_cases h : k = name
    · rw [if_pos h]
      dsimp only [lookupName]
      rw [if_pos rfl]
    · rw [if_neg h]
      dsimp only [lookupName]
      rw [if_neg h]
      apply ih
      have hskip : lookupName ((k, w) :: tl) name = lookupName tl name := by
        dsimp only [lookupName]
        rw [if_neg h]
      rwa [hskip] at hmem

/-- Removing every entry with key `name` from a name-keyed store makes the
lookup of `name` come up empty. -/
theorem lookupName_filter_ne {α : Type} (s : List (String × α)) (name : String) :
    lookupName (s.filter (fun kv => kv.1 != name)) name = none := by
  induction s with
  | nil => rfl
  | cons hd tl ih =>
    rcases hd with ⟨k, w⟩
    rw [List.filter_cons]
    by_cases h : k = name
    · rw [if_neg ?hn]
      case hn => simp [h]
      exact ih
    · rw [if_pos ?hp]
      case hp => simpa using h
      dsimp only [lookupName]
      rw [if_neg h]
      exact ih

/-! Claim theorems -/

/-- C1: whenever the backing registry fails with some error `e`, the REST
operations never swallow it: Get returns `e` itself as its synchronous
error; Create (on a resource passing validation) and Delete return a nil
synchronous error together with a result channel resolving to a Status
whose Message equals `e` verbatim. -/
theorem storage_error_propagation (e : String) (reg : ClientRegistry)
    (ctx : Context) (c : Client) (name : String)
    (herr : reg.err = some e) (hval : validateClient c = []) :
    clientRESTGet reg ctx name = .error e ∧
    clientRESTCreate reg ctx c =
      .ok (.status { status := "Failure", message := e }) ∧
    clientRESTDelete reg ctx name =
      .ok ({ status := "Failure", message := e },
           { reg with deletedClientName := name }) := by
  refine ⟨?_, ?_, ?_⟩
  · simp [clientRESTGet, ClientRegistry.getClient, herr]
  · simp [clientRESTCreate, hval, ClientRegistry.createClient, herr, MakeAsync]
  · simp [clientRESTDelete, ClientRegistry.deleteClient, herr]

/-- Witness for C1 at the test's concrete inputs. -/
theorem storage_error_propagation_witness :
    clientRESTGet { err := some "Sample Error" } NewContext "foo"
        = .error "Sample Error" ∧
    clientRESTCreate { err := some "Sample Error" } NewContext
        { meta := { name := "clientName" } }
        = .ok (.status { status := "Failure", message := "Sample Error" }) ∧
    clientRESTDelete { err := some "Sample Error" } NewContext "foo"
        = .ok ({ status := "Failure", message := "Sample Error" },
               { err := some "Sample Error", deletedClientName := "foo" }) := by
  exact storage_error_propagation "Sample Error" { err := some "Sample Error" }
    NewContext { meta := { name := "clientName" } } "foo" rfl (by decide)

/-- C2: for every context and every resource failing kind-specific
validation (an oauth client with no name), Create returns a non-nil error
synchronously — no result channel is produced — and the outcome is
independent of the backing registry, so no store I/O is attempted. -/
theorem create_validation_synchronous (reg : ClientRegistry) (ctx : Context)
    (c : Client) (hval : validateClient c ≠ []) :
    clientRESTCreate reg ctx c = .error "ValidationFailed: Client is invalid" ∧
    ∀ reg' : ClientRegistry,
      clientRESTCreate reg' ctx c = clientRESTCreate reg ctx c := by
  constructor
  · simp [clientRESTCreate, hval]
  · intro reg'
    simp [clientRESTCreate, hval]

/-- Witness for C2 at the test's concrete input (a client with no name). -/
theorem create_validation_synchronous_witness :
    clientRESTCreate {} NewContext {}
        = .error "ValidationFailed: Client is invalid" ∧
    ∀ reg' : ClientRegistry,
      clientRESTCreate reg' NewContext {} = clientRESTCreate {} NewContext {} := by
  exact create_validation_synchronous {} NewContext {} (by decide)

/-- C3: Update on the immutable-after-creation kinds (the oauth client REST
storage and the event REST storage) fails synchronously with the fixed
Unsupported error; the result is independent of the backing registry, so
the registry is never invoked, its error is never returned, and stored
state is unchanged. -/
theorem update_unsupported (reg : ClientRegistry) (ereg : EventRegistry)
    (ctx : Context) (c : Client) (ev : Event) :
    clientRESTUpdate reg ctx c = .error clientUnsupportedMsg ∧
    eventRESTUpdate ereg ctx ev = .error eventUnsupportedMsg ∧
    (∀ reg' : ClientRegistry,
      clientRESTUpdate reg' ctx c = clientRESTUpdate reg ctx c) ∧
    (∀ ereg' : EventRegistry,
      eventRESTUpdate ereg' ctx ev = eventRESTUpdate ereg ctx ev) :=
  ⟨rfl, rfl, fun _ => rfl, fun _ => rfl⟩

/-- C4: Create of an event whose explicit namespace differs from a non-empty
context namespace returns a synchronous validation error; Create under a
context whose namespace equals the resource's namespace, or under a context
carrying no namespace at all, succeeds synchronously. -/
theorem event_create_namespace_rules (reg : EventRegistry) (ctx : Context)
    (e : Event) (now : Nat) :
    (Context.namespaceOf ctx ≠ "" → e.meta.ns ≠ "" →
      e.meta.ns ≠ Context.namespaceOf ctx →
      eventRESTCreate reg ctx e now = .error "ValidationFailed: namespace conflict") ∧
    (e.meta.ns = Context.namespaceOf ctx →
      ∃ res, eventRESTCreate reg ctx e now = .ok res) ∧
    (ctx = NewContext → ∃ res, eventRESTCreate reg ctx e now = .ok res) := by
  refine ⟨?_, ?_, ?_⟩
  · intro h1 h2 h3
    unfold eventRESTCreate
    rw [if_pos ⟨h1, h2, h3⟩]
  · intro h
    unfold eventRESTCreate
    rw [if_neg (fun hc => hc.2.2 h)]
    cases hm : EventRegistry.createEvent reg (eventStored ctx e now).meta.name
        (eventStored ctx e now) with
    | error msg => exact ⟨_, rfl⟩
    | ok reg' => exact ⟨_, rfl⟩
  · intro h
    subst h
    unfold eventRESTCreate
    rw [if_neg (fun hc => hc.1 rfl)]
    cases hm : EventRegistry.createEvent reg (eventStored NewContext e now).meta.name
        (eventStored NewContext e now) with
    | error msg => exact ⟨_, rfl⟩
    | ok reg' => exact ⟨_, rfl⟩

/-- Witness for C4 at the test's three concrete table rows. -/
theorem event_create_namespace_rules_witness :
    eventRESTCreate {} (WithNamespace "nondefault")
        { meta := { name := "bazzzz", ns := "default" } } 5
        = .error "ValidationFailed: namespace conflict" ∧
    (∃ res, eventRESTCreate {} NewDefaultContext
        { meta := { name := "foo", ns := "default" } } 5 = .ok res) ∧
    (∃ res, eventRESTCreate {} NewContext
        { meta := { name := "bar", ns := "default" } } 5 = .ok res) := by
  refine ⟨?_, ?_, ?_⟩
  · exact (event_create_namespace_rules {} (WithNamespace "nondefault")
      { meta := { name := "bazzzz", ns := "default" } } 5).1
      (by decide) (by decide) (by decide)
  · exact (event_create_namespace_rules {} NewDefaultContext
      { meta := { name := "foo", ns := "default" } } 5).2.1 (by decide)
  · exact (event_create_namespace_rules {} NewContext
      { meta := { name := "bar", ns := "default" } } 5).2.2 rfl

/-- C5: after a successful Create the stored event's object-meta system
fields (creation timestamp, initial resource version) are populated, the
result channel resolves to the stored event, and a subsequent Get with the
same context and name returns exactly that event. -/
theorem create_then_get_roundtrip (reg : EventRegistry) (ctx : Context)
    (e : Event) (now : Nat)
    (herr : reg.err = none)
    (habsent : lookupName reg.store e.meta.name = none)
    (hns : ¬(Context.namespaceOf ctx ≠ "" ∧ e.meta.ns ≠ "" ∧
        e.meta.ns ≠ Context.namespaceOf ctx))
    (hnow : now ≠ 0) :
    ∃ reg',
      eventRESTCreate reg ctx e now = .ok (.obj (eventStored ctx e now), reg') ∧
      hasObjectMetaSystemFieldValues (eventStored ctx e now).meta = true ∧
      eventRESTGet reg' ctx (eventStored ctx e now).meta.name
        = .ok (eventStored ctx e now) := by
  have hname : (eventStored ctx e now).meta.name = e.meta.name := rfl
  refine ⟨{ reg with
      store := (e.meta.name, eventStored ctx e now) :: reg.store }, ?_, ?_, ?_⟩
  · unfold eventRESTCreate
    rw [if_neg hns]
    simp only [EventRegistry.createEvent, herr, hname, habsent]
  · simp only [hasObjectMetaSystemFieldValues, eventStored,
      fillObjectMetaSystemFields, Bool.and_eq_true, bne_iff_ne, ne_eq]
    refine ⟨?_, ?_⟩ <;> split <;> omega
  · have hguard : ¬(Context.namespaceOf ctx ≠ "" ∧
        (eventStored ctx e now).meta.ns ≠ Context.namespaceOf ctx) := by
      rintro ⟨hc, hs⟩
      apply hs
      show (if e.meta.ns = "" then Context.namespaceOf ctx else e.meta.ns)
          = Context.namespaceOf ctx
      by_cases h0 : e.meta.ns = ""
      · rw [if_pos h0]
      · rw [if_neg h0]
        by_contra hne
        exact hns ⟨hc, h0, hne⟩
    unfold eventRESTGet EventRegistry.getEvent
    dsimp only
    rw [herr, hname]
    dsimp only [lookupName]
    rw [if_pos rfl]
    dsimp only
    rw [if_neg hguard]

/-- Witness for C5 at the test's concrete input (event "foo" in the default
namespace, created under the default context). -/
theorem create_then_get_roundtrip_witness :
    ∃ reg',
      eventRESTCreate {} NewDefaultContext
          { meta := { name := "foo", ns := "default" } } 5
        = .ok (.obj (eventStored NewDefaultContext
            { meta := { name := "foo", ns := "default" } } 5), reg') ∧
      hasObjectMetaSystemFieldValues (eventStored NewDefaultContext
          { meta := { name := "foo", ns := "default" } } 5).meta = true ∧
      eventRESTGet reg' NewDefaultContext (eventStored NewDefaultContext
          { meta := { name := "foo", ns := "default" } } 5).meta.name
        = .ok (eventStored NewDefaultContext
            { meta := { name := "foo", ns := "default" } } 5) := by
  exact create_then_get_roundtrip {} NewDefaultContext
    { meta := { name := "foo", ns := "default" } } 5 rfl rfl (by decide) (by decide)

/-- C6: List with the everything label selector and the field selector
status=Tested returns exactly the stored events whose extracted status
attribute is Tested, in the store's original order; with both selectors set
to everything, List returns all stored items unchanged (the oauth client
List behaves the same way, and the empty collection is covered by the
quantification over the stored items). -/
theorem list_selector_filtering (ctx : Context) (st : List (String × Event))
    (items : List Event) :
    eventRESTList { err := none, store := st, objectList := items } ctx
        Selector.everything [("status", "Tested")]
      = .ok (items.filter (fun e => e.condition == "Tested")) ∧
    eventRESTList { err := none, store := st, objectList := items } ctx
        Selector.everything Selector.everything = .ok items ∧
    ∀ cs : List Client,
      clientRESTList { err := none, clients := cs } ctx Selector.everything
        = .ok cs := by
  have hpt : ∀ ev : Event,
      eventMatches Selector.everything [("status", "Tested")] ev
        = (ev.condition == "Tested") := by
    intro ev
    simp [eventMatches, eventGetAttrs, eventFieldSet, Selector.matches,
      Selector.everything, List.lookup]
  refine ⟨?_, ?_, ?_⟩
  · simp only [eventRESTList]
    rw [List.filter_congr (fun x _ => hpt x)]
  · simp [eventRESTList, eventMatches, eventGetAttrs, Selector.matches,
      Selector.everything]
  · intro cs
    simp [clientRESTList, Selector.everything]

/-- C7: a watch session opened with everything label and field selectors
receives every event published after subscription with the same action and
an object identical to the one published, in the exact order of
publication, with no duplication or drop while the session is alive. -/
theorem watch_delivery_order (published : List WatchEvent) :
    watchDeliver Selector.everything Selector.everything published
      = published := by
  simp [watchDeliver, eventMatches, eventGetAttrs, Selector.matches,
    Selector.everything]

/-- C8: getAttrs returns with nil error an empty label set and a field set
whose keys are exactly the seven involvedObject reference fields plus
condition, status, reason and source, where the keys "condition" and
"status" both map to the event's Condition value. -/
theorem event_getAttrs_extraction (e : Event) :
    eventGetAttrs e = .ok ([], eventFieldSet e) ∧
    (eventFieldSet e).map Prod.fst
      = ["involvedObject.kind", "involvedObject.name", "involvedObject.namespace",
         "involvedObject.uid", "involvedObject.apiVersion",
         "involvedObject.resourceVersion", "involvedObject.fieldPath",
         "condition", "status", "reason", "source"] ∧
    (eventFieldSet e).lookup "involvedObject.kind" = some e.involvedObject.kind ∧
    (eventFieldSet e).lookup "involvedObject.name" = some e.involvedObject.name ∧
    (eventFieldSet e).lookup "involvedObject.namespace" = some e.involvedObject.ns ∧
    (eventFieldSet e).lookup "involvedObject.uid" = some e.involvedObject.uid ∧
    (eventFieldSet e).lookup "involvedObject.apiVersion"
      = some e.involvedObject.apiVersion ∧
    (eventFieldSet e).lookup "involvedObject.resourceVersion"
      = some e.involvedObject.resourceVersion ∧
    (eventFieldSet e).lookup "involvedObject.fieldPath"
      = some e.involvedObject.fieldPath ∧
    (eventFieldSet e).lookup "condition" = some e.condition ∧
    (eventFieldSet e).lookup "status" = some e.condition ∧
    (eventFieldSet e).lookup "reason" = some e.reason ∧
    (eventFieldSet e).lookup "source" = some e.source := by
  exact ⟨rfl, rfl, rfl, rfl, rfl, rfl, rfl, rfl, rfl, rfl, rfl, rfl, rfl⟩

/-- C9: each successful Update of an identity strictly increases its
resource version, and an Update supplying a stale resource version fails
with Conflict and leaves the stored state unchanged (the conflicting call
returns no new store, so the caller's store is untouched). -/
theorem version_monotonic_conflict (s : VStore) (name : String) (v : Nat)
    (p : String) (stored : VRes)
    (hs : lookupName s name = some stored) :
    (v = stored.version →
      ∃ s', vupdate s name v p = .ok s' ∧
        lookupName s' name
          = some { version := stored.version + 1, payload := p } ∧
        stored.version < stored.version + 1) ∧
    (v ≠ stored.version → vupdate s name v p = .error .conflict) := by
  constructor
  · intro hv
    refine ⟨s.map (fun kv => if kv.1 = name then
        (name, { version := stored.version + 1, payload := p }) else kv),
      ?_, ?_, Nat.lt_succ_self _⟩
    · simp only [vupdate, hs]
      rw [if_neg (fun hne => hne hv)]
    · exact lookupName_map_set s name _ (by rw [hs]; rfl)
  · intro hv
    simp only [vupdate, hs]
    rw [if_pos hv]

/-- Witness for C9 on the spec's concrete scenario: an entry at version 1,
one successful update to version 2, one stale update rejected. -/
theorem version_monotonic_conflict_witness :
    (∃ s', vupdate [("foo", { version := 1, payload := "a" })] "foo" 1 "b"
        = .ok s' ∧
      lookupName s' "foo" = some { version := 2, payload := "b" } ∧
      (1 : Nat) < 2) ∧
    vupdate [("foo", { version := 1, payload := "a" })] "foo" 0 "b"
      = .error .conflict := by
  constructor
  · exact (version_monotonic_conflict
      [("foo", { version := 1, payload := "a" })] "foo" 1 "b"
      { version := 1, payload := "a" } rfl).1 rfl
  · exact (version_monotonic_conflict
      [("foo", { version := 1, payload := "a" })] "foo" 0 "b"
      { version := 1, payload := "a" } rfl).2 (by decide)

/-- C10: a successful Delete returns a nil synchronous error and a result
channel resolving exactly once to a Status whose Status field is "Success";
the backing registry records precisely the requested name — and no other —
as the deleted identity, and the deleted event identity is gone from the
store afterwards. -/
theorem delete_success (reg : ClientRegistry) (ctx : Context) (name : String)
    (herr : reg.err = none)
    (ereg : EventRegistry) (ectx : Context) (ename : String) (e0 : Event)
    (herr2 : ereg.err = none)
    (hfound : lookupName ereg.store ename = some e0) :
    clientRESTDelete reg ctx name
      = .ok ({ status := "Success", message := "" },
             { reg with deletedClientName := name }) ∧
    ∃ ereg', eventRESTDelete ereg ectx ename
        = .ok ({ status := "Success", message := "" }, ereg') ∧
      lookupName ereg'.store ename = none := by
  constructor
  · simp [clientRESTDelete, ClientRegistry.deleteClient, herr]
  · refine ⟨{ ereg with
      store := ereg.store.filter (fun kv => kv.1 != ename) }, ?_, ?_⟩
    · simp only [eventRESTDelete, EventRegistry.deleteEvent, herr2, hfound]
    · exact lookupName_filter_ne _ _

/-- Witness for C10 at the tests' concrete input, deleting "foo". -/
theorem delete_success_witness :
    clientRESTDelete {} NewContext "foo"
      = .ok ({ status := "Success", message := "" },
             { deletedClientName := "foo" }) ∧
    ∃ ereg', eventRESTDelete { store := [("foo", {})] } NewDefaultContext "foo"
        = .ok ({ status := "Success", message := "" }, ereg') ∧
      lookupName ereg'.store "foo" = none := by
  exact delete_success {} NewContext "foo" rfl
    { store := [("foo", {})] } NewDefaultContext "foo" {} rfl rfl

end Spec2Proof
